import Mathlib

/-!
Verification of the swiftdashboard aggregation and ranking logic.

This file gives a shallow embedding, in Lean 4, of the client-side
aggregation code of the swiftdashboard repository and proves (or refutes)
the specified properties about it.  The embedded functions are translated
directly from the TypeScript source:

* `calculateStats`            — the attendance aggregator
  (`Attendance.calculateStats`);
* `calculateWorkingHours`     — `AttendanceService.calculateWorkingHours`;
* `getWorkingHours`           — `Attendance.getWorkingHours`;
* `calculateAttendancePoints` — `AttendanceService.calculateAttendancePoints`;
* `getAttendancePoints`       — `Attendance.getAttendancePoints`.

Modelling conventions.  JavaScript timestamps are modelled as
`Option (Option Int)`: `none` is a falsy input (null, undefined or the
empty string), `some none` is a non-empty string whose `Date` parse is
`NaN`, and `some (some t)` is a string parsing to epoch-millisecond `t`.
A JavaScript number that may be `NaN` is modelled as an `Option` value
with `none` for `NaN`; `NaN < 0` is false in JavaScript, and `Math.floor`
and arithmetic propagate `NaN`, which the embedding reproduces exactly.
-/

namespace SwiftDashboard

/-- ASCII lowercasing, as `String.prototype.toLowerCase` acts on the
attendance status values occurring here. -/
def jsToLower (s : String) : String := ⟨s.data.map Char.toLower⟩

/-- One attendance record, restricted to the fields the aggregator reads:
`status` (`none` models a null/undefined status) and `user.id`. -/
structure AttRecord where
  status : Option String
  userId : Nat
deriving DecidableEq

/-- The pagination envelope, restricted to the field the aggregator reads. -/
structure PaginationData where
  totalItems : Nat
deriving DecidableEq

/-- The `attendanceStats` view model of the attendance component. -/
structure AttendanceStats where
  totalPresent : Nat
  totalAbsent : Nat
  totalLate : Nat
  totalLeave : Nat
  totalOnTime : Nat
  totalStaff : Nat
deriving DecidableEq

/-- The all-zero reset value of `attendanceStats`. -/
def emptyStats : AttendanceStats := ⟨0, 0, 0, 0, 0, 0⟩

/-- Embeds `record.status?.toLowerCase() || 'absent'`: a null/undefined
status, or one whose lowercasing is the (falsy) empty string, yields
`"absent"`. -/
def statusKey (st : Option String) : String :=
  match st with
  | none => "absent"
  | some s => if jsToLower s = "" then "absent" else jsToLower s

/-- The `switch (status)` block of `Attendance.calculateStats`: exactly one
counter is incremented for a recognized key, none otherwise. -/
def bumpStatus (acc : AttendanceStats) (key : String) : AttendanceStats :=
  if key = "present" then { acc with totalPresent := acc.totalPresent + 1 }
  else if key = "absent" then { acc with totalAbsent := acc.totalAbsent + 1 }
  else if key = "late" then { acc with totalLate := acc.totalLate + 1 }
  else if key = "leave" then { acc with totalLeave := acc.totalLeave + 1 }
  else if key = "ontime" then { acc with totalOnTime := acc.totalOnTime + 1 }
  else acc

/-- The `forEach` status-counting pass of `Attendance.calculateStats`. -/
def countStatuses (records : List AttRecord) : AttendanceStats :=
  records.foldl (fun acc r => bumpStatus acc (statusKey r.status)) emptyStats

/-- The `totalStaff` computation of `Attendance.calculateStats`: for the
`"Day"` period the size of `new Set(records.map(r => r.user.id))`,
otherwise `paginationData?.totalItems || records.length` (so a zero or
absent `totalItems` falls back to the raw record count). -/
def totalStaffCount (records : List AttRecord) (period : String)
    (pagination : Option PaginationData) : Nat :=
  if period = "Day" then ((records.map AttRecord.userId).dedup).length
  else
    match pagination with
    | some p => if p.totalItems ≠ 0 then p.totalItems else records.length
    | none => records.length

/-- `Attendance.calculateStats`, as a function of the records, the selected
period and the pagination data. -/
def calculateStats (records : List AttRecord) (period : String)
    (pagination : Option PaginationData) : AttendanceStats :=
  { countStatuses records with totalStaff := totalStaffCount records period pagination }

/-- A check-in or check-out input: `none` is falsy (null/undefined/empty
string), `some none` a non-empty string whose parse is `NaN`, and
`some (some t)` a string parsing to epoch-millisecond `t`. -/
abbrev Timestamp := Option (Option Int)

/-- The `{hours, minutes, total}` result of
`AttendanceService.calculateWorkingHours`; `none` components model `NaN`. -/
structure WorkDuration where
  hours : Option Int
  minutes : Option Int
  total : Option ℚ
deriving DecidableEq

/-- The zero duration `{hours: 0, minutes: 0, total: 0}`. -/
def zeroDuration : WorkDuration := ⟨some 0, some 0, some 0⟩

/-- `AttendanceService.calculateWorkingHours`.  Note that, unlike
`Attendance.getWorkingHours`, this function has no `isNaN` guard: when a
non-empty input fails to parse, `diffMs` is `NaN`, the `diffMs < 0` test is
false, and `NaN` flows into all three result components. -/
def calculateWorkingHours (checkIn checkOut : Timestamp) : WorkDuration :=
  match checkIn, checkOut with
  | none, _ => zeroDuration
  | some _, none => zeroDuration
  | some a, some b =>
    match a, b with
    | some s, some e =>
      let diffMs := e - s
      if diffMs < 0 then zeroDuration
      else
        let hours : Nat := diffMs.toNat / 3600000
        let minutes : Nat := diffMs.toNat % 3600000 / 60000
        ⟨some (hours : Int), some (minutes : Int), some ((hours : ℚ) + (minutes : ℚ) / 60)⟩
    | _, _ => ⟨none, none, none⟩

/-- `Attendance.getWorkingHours` (the component copy): it validates both
parses with `isNaN` and returns the string `"0H 0M"` for every falsy,
unparseable or negative-difference input. -/
def getWorkingHours (checkIn checkOut : Timestamp) : String :=
  match checkIn, checkOut with
  | none, _ => "0H 0M"
  | some _, none => "0H 0M"
  | some a, some b =>
    match a, b with
    | some s, some e =>
      let diffMs := e - s
      if diffMs < 0 then "0H 0M"
      else
        toString (diffMs.toNat / 3600000) ++ "H " ++
          toString (diffMs.toNat % 3600000 / 60000) ++ "M"
    | _, _ => "0H 0M"

/-- `AttendanceService.calculateAttendancePoints`:
`Math.min(hours * 40, 320)` over the `hours` component of
`calculateWorkingHours` (`Math.min(NaN, 320)` is `NaN`). -/
def calculateAttendancePoints (checkIn checkOut : Timestamp) : Option Int :=
  match (calculateWorkingHours checkIn checkOut).hours with
  | none => none
  | some h => some (min (h * 40) 320)

/-- `Attendance.getAttendancePoints` (the component copy, with the `isNaN`
guard): floored whole hours times 40, capped at 320, and 0 on every guard
path. -/
def getAttendancePoints (checkIn checkOut : Timestamp) : Int :=
  match checkIn, checkOut with
  | none, _ => 0
  | some _, none => 0
  | some a, some b =>
    match a, b with
    | some s, some e =>
      let diffMs := e - s
      if diffMs < 0 then 0
      else min ((diffMs.toNat / 3600000 : Nat) * 40 : Int) 320
    | _, _ => 0

/-- One department, restricted to the field `calculateBestDepartment`
reads (`dept.name`). -/
structure Department where
  name : String
deriving DecidableEq

/-- One ranked employee as read by `AdminDashboard.calculateBestDepartment`:
`department` is `none` for a null/undefined field (the empty string, also
falsy under the `if (emp.department)` guard, is modelled by the explicit
test in the folds below), `monthlyPoint` is `none` when absent (the
`emp.monthlyPoint || 0` default). -/
structure DeptEmp where
  department : Option String
  monthlyPoint : Option Int
deriving DecidableEq

/-- A JavaScript `Map<string, number>` modelled as an insertion-ordered
association list (`Map` iteration follows insertion order; `set` on an
existing key updates in place). -/
abbrev PtsMap := List (String × Int)

/-- `Map.prototype.get`, returning `none` for a missing key. -/
def mapGet (m : PtsMap) (k : String) : Option Int :=
  match m with
  | [] => none
  | (k', v) :: t => if k' = k then some v else mapGet t k

/-- `Map.prototype.set`: update an existing key in place, else append. -/
def mapSet (m : PtsMap) (k : String) (v : Int) : PtsMap :=
  match m with
  | [] => [(k, v)]
  | (k', v') :: t => if k' = k then (k', v) :: t else (k', v') :: mapSet t k v

/-- The initialization pass of `calculateBestDepartment`:
`deptPoints.set(dept.name, 0)` for every known department. -/
def initDeptPoints (deps : List Department) : PtsMap :=
  deps.foldl (fun m d => mapSet m d.name 0) []

/-- The accumulation pass of `calculateBestDepartment`: every employee with
a truthy `department` adds `monthlyPoint || 0` to that key (creating the
key when the department is not in the initialized map). -/
def addEmpPoints (m : PtsMap) (emps : List DeptEmp) : PtsMap :=
  emps.foldl
    (fun m e =>
      match e.department with
      | none => m
      | some d =>
        if d = "" then m
        else mapSet m d ((mapGet m d).getD 0 + e.monthlyPoint.getD 0))
    m

/-- The full `deptPoints` map built by `calculateBestDepartment`. -/
def deptPoints (deps : List Department) (emps : List DeptEmp) : PtsMap :=
  addEmpPoints (initDeptPoints deps) emps

/-- The strict-maximum scan (`if (points > maxPoints) { ... }`) over the
map entries in insertion order, from a given `(maxPoints, bestDept)`
accumulator. -/
def selectMax (m : PtsMap) (acc : Int × String) : Int × String :=
  m.foldl (fun acc p => if p.2 > acc.1 then (p.2, p.1) else acc) acc

/-- The headcount fallback map of `calculateBestDepartment`: every employee
with a truthy `department` contributes 1 to that key. -/
def deptCounts (emps : List DeptEmp) : PtsMap :=
  emps.foldl
    (fun m e =>
      match e.department with
      | none => m
      | some d =>
        if d = "" then m
        else mapSet m d ((mapGet m d).getD 0 + 1))
    []

/-- `AdminDashboard.calculateBestDepartment`, returning the pair
`(bestDepartment, bestDepartmentPoints)` it stores.  `Math.round` is the
identity on the integer point values modelled here. -/
def calculateBestDepartment (emps : List DeptEmp) (deps : List Department) :
    String × Int :=
  if emps.length = 0 ∨ deps.length = 0 then ("N/A", 0)
  else
    let m := deptPoints deps emps
    let best := selectMax m (0, "")
    let bestDept :=
      if best.1 = 0 ∧ 0 < deps.length then (selectMax (deptCounts emps) (0, best.2)).2
      else best.2
    (if bestDept = "" then "N/A" else bestDept, best.1)

/-- One ranked employee as read by the ranking components: a carried
identifier and the `monthlyRank` sort key. -/
structure RankEmp where
  name : String
  monthlyRank : Int
deriving DecidableEq

/-- The ordering induced by the comparator
`(a, b) => a.monthlyRank - b.monthlyRank`. -/
def rankOrder (a b : RankEmp) : Prop := a.monthlyRank ≤ b.monthlyRank

instance : DecidableRel rankOrder :=
  fun a b => inferInstanceAs (Decidable (a.monthlyRank ≤ b.monthlyRank))

/-- `employees.sort((a, b) => a.monthlyRank - b.monthlyRank)`:
`Array.prototype.sort` is a stable comparison sort producing an ascending
reordering of the array, modelled here by a stable sort over `rankOrder`. -/
def sortByRank (l : List RankEmp) : List RankEmp := l.insertionSort rankOrder

/-- The `topN` pattern `employees.sort(...).slice(0, n)` used by
`Ranking.loadEmployeeRanking` and `AdminDashboard.loadEmployeeRanks`
(both with `n = 3`). -/
def topN (l : List RankEmp) (n : Nat) : List RankEmp := (sortByRank l).take n

/-- The fields of the `Ranking` component mutated by the
`loadEmployeeRanking` subscription. -/
structure RankingState where
  employees : List RankEmp
  topThreeEmployees : List RankEmp
deriving DecidableEq

/-- The `next` handler of `Ranking.loadEmployeeRanking`: on an ok response
it stores `pageData` in `this.employees`, then `this.employees.sort(...)`
reorders that same array in place and `slice(0, 3)` of it becomes
`topThreeEmployees`; otherwise the state is untouched. -/
def rankingOnNext (st : RankingState) (ok : Bool)
    (pageData : Option (List RankEmp)) : RankingState :=
  match ok, pageData with
  | true, some pd => { employees := sortByRank pd, topThreeEmployees := (sortByRank pd).take 3 }
  | _, _ => st

/-- `Ranking.getRankLabel`: a `switch` on the exact rank with cases 1, 2, 3
and a default of `` `${rank}th` ``.  Ranks are the 1-based positive
integers of the data model, so `Nat` models the JavaScript number here. -/
def getRankLabel (rank : Nat) : String :=
  match rank with
  | 1 => "1st"
  | 2 => "2nd"
  | 3 => "3rd"
  | _ => toString rank ++ "th"

/-- `Staffprofile.getDayRankSuffix`: empty for a falsy rank, otherwise the
suffix from `rank % 100` (the 11–13 special case) and `rank % 10`. -/
def getDayRankSuffix (rank : Nat) : String :=
  if rank = 0 then ""
  else
    let lastDigit := rank % 10
    let lastTwoDigits := rank % 100
    if 11 ≤ lastTwoDigits ∧ lastTwoDigits ≤ 13 then "th"
    else
      match lastDigit with
      | 1 => "st"
      | 2 => "nd"
      | 3 => "rd"
      | _ => "th"

/-- Modelled from the spec: the English ordinal suffix rules as the spec
states them (last two digits 11–13 give "th"; otherwise a last digit of
1, 2 or 3 gives "st", "nd", "rd"; anything else "th").  Stated for
comparison with the source-derived `getDayRankSuffix`. -/
def englishOrdinalSuffix (n : Nat) : String :=
  if 11 ≤ n % 100 ∧ n % 100 ≤ 13 then "th"
  else if n % 10 = 1 then "st"
  else if n % 10 = 2 then "nd"
  else if n % 10 = 3 then "rd"
  else "th"

/-- The raw task-stats payload of `AdminDashboard.loadTaskStats`, flattened
to the ten counters and `total`; `none` models a key absent from the
source JSON (observed as `undefined`). -/
structure RawTaskStats where
  total : Option Int
  inProgress : Option Int
  blocked : Option Int
  completed : Option Int
  underReview : Option Int
  notStarted : Option Int
  overdue : Option Int
  critical : Option Int
  high : Option Int
  low : Option Int
  medium : Option Int
deriving DecidableEq

/-- The zero-filled default object that `loadTaskStats` builds when the
response is not usable (and in its `catchError` branch). -/
def zeroTaskStats : RawTaskStats :=
  ⟨some 0, some 0, some 0, some 0, some 0, some 0, some 0, some 0, some 0, some 0, some 0⟩

/-- The `map` step of `AdminDashboard.loadTaskStats`: an ok response with a
truthy `data` object is returned verbatim (no per-key substitution);
anything else yields the zero-filled default. -/
def loadTaskStatsResult (ok : Bool) (data : Option RawTaskStats) : RawTaskStats :=
  match ok, data with
  | true, some d => d
  | _, _ => zeroTaskStats

lemma countStatuses_append (records : List AttRecord) (r : AttRecord) :
    countStatuses (records ++ [r])
      = bumpStatus (countStatuses records) (statusKey r.status) := by
  simp [countStatuses, List.foldl_append]

lemma calculateStats_totalPresent (records : List AttRecord) (period : String)
    (pag : Option PaginationData) :
    (calculateStats records period pag).totalPresent
      = (countStatuses records).totalPresent := rfl

lemma calculateStats_totalAbsent (records : List AttRecord) (period : String)
    (pag : Option PaginationData) :
    (calculateStats records period pag).totalAbsent
      = (countStatuses records).totalAbsent := rfl

lemma calculateStats_totalLate (records : List AttRecord) (period : String)
    (pag : Option PaginationData) :
    (calculateStats records period pag).totalLate
      = (countStatuses records).totalLate := rfl

lemma calculateStats_totalLeave (records : List AttRecord) (period : String)
    (pag : Option PaginationData) :
    (calculateStats records period pag).totalLeave
      = (countStatuses records).totalLeave := rfl

lemma calculateStats_totalOnTime (records : List AttRecord) (period : String)
    (pag : Option PaginationData) :
    (calculateStats records period pag).totalOnTime
      = (countStatuses records).totalOnTime := rfl

lemma calculateStats_totalStaff (records : List AttRecord) (period : String)
    (pag : Option PaginationData) :
    (calculateStats records period pag).totalStaff
      = totalStaffCount records period pag := rfl

lemma bump_unrecognized (acc : AttendanceStats) (key : String)
    (h1 : key ≠ "present") (h2 : key ≠ "absent") (h3 : key ≠ "late")
    (h4 : key ≠ "leave") (h5 : key ≠ "ontime") :
    bumpStatus acc key = acc := by
  simp [bumpStatus, h1, h2, h3, h4, h5]

lemma bump_absent (acc : AttendanceStats) :
    (bumpStatus acc "absent").totalAbsent = acc.totalAbsent + 1 := by
  simp [bumpStatus]

/-- C1 (amended): a record whose status is present and, after lowercasing,
non-empty and not one of the five recognized values is counted in none of
the five status counters; but a record with a missing (or empty) status is
counted as absent, incrementing `totalAbsent`. -/
theorem calculateStats_status_bucket_policy :
    (∀ (records : List AttRecord) (r : AttRecord) (period : String)
        (pag : Option PaginationData) (s : String),
        r.status = some s → jsToLower s ≠ "" →
        jsToLower s ∉ (["present", "absent", "late", "leave", "ontime"] : List String) →
        (calculateStats (records ++ [r]) period pag).totalPresent
            = (calculateStats records period pag).totalPresent
          ∧ (calculateStats (records ++ [r]) period pag).totalAbsent
            = (calculateStats records period pag).totalAbsent
          ∧ (calculateStats (records ++ [r]) period pag).totalLate
            = (calculateStats records period pag).totalLate
          ∧ (calculateStats (records ++ [r]) period pag).totalLeave
            = (calculateStats records period pag).totalLeave
          ∧ (calculateStats (records ++ [r]) period pag).totalOnTime
            = (calculateStats records period pag).totalOnTime)
    ∧ (∀ (records : List AttRecord) (r : AttRecord) (period : String)
        (pag : Option PaginationData),
        r.status = none ∨ r.status = some "" →
        (calculateStats (records ++ [r]) period pag).totalAbsent
          = (calculateStats records period pag).totalAbsent + 1) := by
  constructor
  · intro records r period pag s hs hne hnr
    have h1 : jsToLower s ≠ "present" := by intro h; exact hnr (by rw [h]; decide)
    have h2 : jsToLower s ≠ "absent" := by intro h; exact hnr (by rw [h]; decide)
    have h3 : jsToLower s ≠ "late" := by intro h; exact hnr (by rw [h]; decide)
    have h4 : jsToLower s ≠ "leave" := by intro h; exact hnr (by rw [h]; decide)
    have h5 : jsToLower s ≠ "ontime" := by intro h; exact hnr (by rw [h]; decide)
    have hkey : statusKey r.status = jsToLower s := by
      rw [hs]; simp [statusKey, hne]
    have hb : countStatuses (records ++ [r]) = countStatuses records := by
      rw [countStatuses_append, hkey, bump_unrecognized _ _ h1 h2 h3 h4 h5]
    refine ⟨?_, ?_, ?_, ?_, ?_⟩
    · rw [calculateStats_totalPresent, calculateStats_totalPresent, hb]
    · rw [calculateStats_totalAbsent, calculateStats_totalAbsent, hb]
    · rw [calculateStats_totalLate, calculateStats_totalLate, hb]
    · rw [calculateStats_totalLeave, calculateStats_totalLeave, hb]
    · rw [calculateStats_totalOnTime, calculateStats_totalOnTime, hb]
  · intro records r period pag h
    have hkey : statusKey r.status = "absent" := by
      rcases h with h | h <;> rw [h] <;> decide
    rw [calculateStats_totalAbsent, calculateStats_totalAbsent,
      countStatuses_append, hkey, bump_absent]

theorem calculateStats_status_bucket_policy_witness :
    ((calculateStats [⟨some "Unknown", 0⟩] "Day" none).totalPresent
        = (calculateStats [] "Day" none).totalPresent
      ∧ (calculateStats [⟨some "Unknown", 0⟩] "Day" none).totalAbsent
        = (calculateStats [] "Day" none).totalAbsent
      ∧ (calculateStats [⟨some "Unknown", 0⟩] "Day" none).totalLate
        = (calculateStats [] "Day" none).totalLate
      ∧ (calculateStats [⟨some "Unknown", 0⟩] "Day" none).totalLeave
        = (calculateStats [] "Day" none).totalLeave
      ∧ (calculateStats [⟨some "Unknown", 0⟩] "Day" none).totalOnTime
        = (calculateStats [] "Day" none).totalOnTime)
    ∧ (calculateStats [⟨none, 0⟩] "Day" none).totalAbsent
        = (calculateStats [] "Day" none).totalAbsent + 1 :=
  ⟨calculateStats_status_bucket_policy.1 [] ⟨some "Unknown", 0⟩ "Day" none
      "Unknown" rfl (by decide) (by decide),
    calculateStats_status_bucket_policy.2 [] ⟨none, 0⟩ "Day" none (Or.inl rfl)⟩

/-- C1 (counterexample): the claim says a record with a missing status is
counted in none of the five counters, but `calculateStats` defaults a
missing status to `'absent'` and counts it in `totalAbsent`. -/
theorem calculateStats_missing_status_counted_absent :
    (calculateStats [⟨none, 0⟩] "Day" none).totalAbsent = 1
    ∧ (calculateStats [] "Day" none).totalAbsent = 0 := by decide

/-- C2: at a concrete unparseable (non-null) input pair, the service-level
`calculateWorkingHours` — which has no `isNaN` guard — returns the `NaN`
triple instead of the zero duration, while the component-level
`getWorkingHours`, which does guard, returns the zero result. -/
theorem calculateWorkingHours_unparseable_gives_nan :
    calculateWorkingHours (some none) (some none) = ⟨none, none, none⟩
    ∧ (⟨none, none, none⟩ : WorkDuration) ≠ zeroDuration
    ∧ getWorkingHours (some none) (some none) = "0H 0M" := by
  refine ⟨rfl, by decide, rfl⟩

/-- C5 (amended): `totalStaff` is the number of distinct user ids when the
period is `"Day"`; for any other period it is the paginated source's
`totalItems` when that is present and non-zero, and the raw record count
when the pagination data is absent or its `totalItems` is 0 (the code
tests truthiness, so a present `totalItems = 0` is not used). -/
theorem calculateStats_totalStaff_policy :
    (∀ (records : List AttRecord) (pag : Option PaginationData),
        (calculateStats records "Day" pag).totalStaff
          = ((records.map AttRecord.userId).toFinset).card)
    ∧ (∀ (records : List AttRecord) (period : String) (p : PaginationData),
        period ≠ "Day" → p.totalItems ≠ 0 →
        (calculateStats records period (some p)).totalStaff = p.totalItems)
    ∧ (∀ (records : List AttRecord) (period : String) (p : PaginationData),
        period ≠ "Day" → p.totalItems = 0 →
        (calculateStats records period (some p)).totalStaff = records.length)
    ∧ (∀ (records : List AttRecord) (period : String),
        period ≠ "Day" →
        (calculateStats records period none).totalStaff = records.length) := by
  refine ⟨?_, ?_, ?_, ?_⟩
  · intro records pag
    rw [calculateStats_totalStaff, List.card_toFinset]
    simp [totalStaffCount]
  · intro records period p hper hti
    rw [calculateStats_totalStaff]
    simp [totalStaffCount, hper, hti]
  · intro records period p hper hti
    rw [calculateStats_totalStaff]
    simp [totalStaffCount, hper, hti]
  · intro records period hper
    rw [calculateStats_totalStaff]
    simp [totalStaffCount, hper]

theorem calculateStats_totalStaff_policy_witness :
    (calculateStats [⟨some "present", 5⟩, ⟨some "late", 5⟩] "Day" none).totalStaff = 1
    ∧ (calculateStats [⟨some "present", 5⟩] "Week" (some ⟨7⟩)).totalStaff = 7
    ∧ (calculateStats [⟨some "present", 5⟩] "Week" (some ⟨0⟩)).totalStaff = 1
    ∧ (calculateStats [⟨some "present", 5⟩] "Week" none).totalStaff = 1 := by
  refine ⟨?_, ?_, ?_, ?_⟩
  · rw [calculateStats_totalStaff_policy.1 [⟨some "present", 5⟩, ⟨some "late", 5⟩] none]
    decide
  · exact calculateStats_totalStaff_policy.2.1 _ "Week" ⟨7⟩ (by decide) (by decide)
  · exact calculateStats_totalStaff_policy.2.2.1 _ "Week" ⟨0⟩ (by decide) rfl
  · exact calculateStats_totalStaff_policy.2.2.2 _ "Week" (by decide)

/-- C5 (counterexample): with pagination data present but `totalItems = 0`
and one record, a non-Day period yields `totalStaff = 1`, not the supplied
`totalItems`. -/
theorem calculateStats_totalItems_zero_not_used :
    (calculateStats [⟨some "present", 0⟩] "Week" (some ⟨0⟩)).totalStaff
      ≠ (⟨0⟩ : PaginationData).totalItems := by decide

lemma calculateWorkingHours_hours (s e : Int) (h : s ≤ e) :
    (calculateWorkingHours (some (some s)) (some (some e))).hours
      = some (((e - s).toNat / 3600000 : Nat) : Int) := by
  have h0 : ¬ (e - s < 0) := by omega
  simp [calculateWorkingHours, h0]

lemma getAttendancePoints_eq (s e : Int) (h : s ≤ e) :
    getAttendancePoints (some (some s)) (some (some e))
      = min ((((e - s).toNat / 3600000 : Nat) : Int) * 40) 320 := by
  have h0 : ¬ (e - s < 0) := by omega
  simp [getAttendancePoints, h0]

lemma calculateAttendancePoints_eq (s e : Int) (h : s ≤ e) :
    calculateAttendancePoints (some (some s)) (some (some e))
      = some (min ((((e - s).toNat / 3600000 : Nat) : Int) * 40) 320) := by
  simp [calculateAttendancePoints, calculateWorkingHours_hours s e h]

/-- C6: for every valid check-in/check-out pair (both parse, checkOut not
earlier than checkIn) both point computations equal the floored whole
hours times 40 clamped to 320; the result is monotone in the floored hour
count, and exactly 320 once the floored hours reach 8. -/
theorem attendancePoints_floor_clamp :
    (∀ s e : Int, s ≤ e →
        calculateAttendancePoints (some (some s)) (some (some e))
            = some (min ((((e - s).toNat / 3600000 : Nat) : Int) * 40) 320)
          ∧ getAttendancePoints (some (some s)) (some (some e))
            = min ((((e - s).toNat / 3600000 : Nat) : Int) * 40) 320)
    ∧ (∀ s e : Int, s ≤ e → 8 ≤ (e - s).toNat / 3600000 →
        getAttendancePoints (some (some s)) (some (some e)) = 320
          ∧ calculateAttendancePoints (some (some s)) (some (some e)) = some 320)
    ∧ (∀ s e u v : Int, s ≤ e → u ≤ v →
        (e - s).toNat / 3600000 ≤ (v - u).toNat / 3600000 →
        getAttendancePoints (some (some s)) (some (some e))
          ≤ getAttendancePoints (some (some u)) (some (some v))) := by
  refine ⟨?_, ?_, ?_⟩
  · intro s e h
    exact ⟨calculateAttendancePoints_eq s e h, getAttendancePoints_eq s e h⟩
  · intro s e h h8
    have hmin : min ((((e - s).toNat / 3600000 : Nat) : Int) * 40) 320 = 320 := by
      rw [min_eq_right]
      omega
    refine ⟨?_, ?_⟩
    · rw [getAttendancePoints_eq s e h, hmin]
    · rw [calculateAttendancePoints_eq s e h, hmin]
  · intro s e u v h h' hq
    rw [getAttendancePoints_eq s e h, getAttendancePoints_eq u v h']
    exact min_le_min (by omega) le_rfl

theorem attendancePoints_floor_clamp_witness :
    calculateAttendancePoints (some (some 0)) (some (some 30600000)) = some 320
    ∧ getAttendancePoints (some (some 0)) (some (some 30600000)) = 320
    ∧ getAttendancePoints (some (some 0)) (some (some 3600000))
        ≤ getAttendancePoints (some (some 0)) (some (some 30600000)) :=
  ⟨(attendancePoints_floor_clamp.2.1 0 30600000 (by decide) (by decide)).2,
    (attendancePoints_floor_clamp.2.1 0 30600000 (by decide) (by decide)).1,
    attendancePoints_floor_clamp.2.2 0 3600000 0 30600000 (by decide) (by decide)
      (by decide)⟩

lemma mapGet_mapSet_self (m : PtsMap) (k : String) (v : Int) :
    mapGet (mapSet m k v) k = some v := by
  induction m with
  | nil => simp [mapSet, mapGet]
  | cons p t ih =>
    obtain ⟨k', v'⟩ := p
    by_cases h : k' = k
    · simp [mapSet, mapGet, h]
    · simp [mapSet, mapGet, h, ih]

lemma mapGet_mapSet_ne (m : PtsMap) (k k' : String) (v : Int) (h : k ≠ k') :
    mapGet (mapSet m k v) k' = mapGet m k' := by
  induction m with
  | nil => simp [mapSet, mapGet, h]
  | cons p t ih =>
    obtain ⟨k0, v0⟩ := p
    by_cases h0 : k0 = k
    · subst h0
      simp [mapSet, mapGet, h]
    · by_cases h1 : k0 = k'
      · subst h1
        simp [mapSet, mapGet, h0]
      · simp [mapSet, mapGet, h0, h1, ih]

lemma mem_mapSet (m : PtsMap) (k : String) (v : Int) (p : String × Int)
    (h : p ∈ mapSet m k v) : p = (k, v) ∨ p ∈ m := by
  induction m with
  | nil =>
    simp only [mapSet, List.mem_singleton] at h
    exact Or.inl h
  | cons q t ih =>
    obtain ⟨k0, v0⟩ := q
    by_cases h0 : k0 = k
    · subst h0
      simp only [mapSet, if_pos rfl] at h
      rcases List.mem_cons.mp h with h | h
      · exact Or.inl h
      · exact Or.inr (List.mem_cons_of_mem _ h)
    · simp only [mapSet, if_neg h0] at h
      rcases List.mem_cons.mp h with h | h
      · exact Or.inr (h ▸ List.mem_cons_self _ _)
      · rcases ih h with h' | h'
        · exact Or.inl h'
        · exact Or.inr (List.mem_cons_of_mem _ h')

lemma initDeptPoints_get_aux (deps : List Department) (d : String) :
    ∀ m : PtsMap, (d ∈ deps.map Department.name ∨ mapGet m d = some 0) →
      mapGet (deps.foldl (fun m dp => mapSet m dp.name 0) m) d = some 0 := by
  induction deps with
  | nil =>
    intro m h
    rcases h with h | h
    · simp at h
    · simpa using h
  | cons dp t ih =>
    intro m h
    simp only [List.foldl_cons]
    apply ih
    by_cases hd : dp.name = d
    · right
      rw [hd]
      exact mapGet_mapSet_self m d 0
    · rcases h with h | h
      · simp only [List.map_cons, List.mem_cons] at h
        rcases h with h | h
        · exact absurd h.symm hd
        · exact Or.inl h
      · right
        rw [mapGet_mapSet_ne m dp.name d 0 hd]
        exact h

lemma initDeptPoints_get (deps : List Department) (d : String)
    (h : d ∈ deps.map Department.name) :
    mapGet (initDeptPoints deps) d = some 0 :=
  initDeptPoints_get_aux deps d [] (Or.inl h)

/-- The reference value of a department's total: the sum of the defaulted
`monthlyPoint` over exactly the employees whose `department` field equals
the given name. -/
def sumPts (emps : List DeptEmp) (d : String) : Int :=
  ((emps.filter (fun e => e.department = some d)).map
    (fun e => e.monthlyPoint.getD 0)).sum

lemma sumPts_cons_skip (e : DeptEmp) (t : List DeptEmp) (d : String)
    (h : e.department ≠ some d) : sumPts (e :: t) d = sumPts t d := by
  simp [sumPts, List.filter_cons, h]

lemma sumPts_cons_hit (e : DeptEmp) (t : List DeptEmp) (d : String)
    (h : e.department = some d) :
    sumPts (e :: t) d = e.monthlyPoint.getD 0 + sumPts t d := by
  simp [sumPts, List.filter_cons, h]

lemma addEmpPoints_get (emps : List DeptEmp) (d : String) (hd : d ≠ "") :
    ∀ (m : PtsMap) (v : Int), mapGet m d = some v →
      mapGet (addEmpPoints m emps) d = some (v + sumPts emps d) := by
  induction emps with
  | nil =>
    intro m v h
    simpa [addEmpPoints, sumPts] using h
  | cons e t ih =>
    intro m v h
    rw [show addEmpPoints m (e :: t)
        = addEmpPoints
            (match e.department with
              | none => m
              | some dp =>
                if dp = "" then m
                else mapSet m dp ((mapGet m dp).getD 0 + e.monthlyPoint.getD 0)) t
      from rfl]
    cases he : e.department with
    | none =>
      rw [sumPts_cons_skip e t d (by rw [he]; exact fun hc => Option.noConfusion hc)]
      exact ih m v h
    | some dp =>
      by_cases hdp : dp = ""
      · rw [sumPts_cons_skip e t d
          (by rw [he, hdp]; intro hc; exact hd (Option.some.inj hc).symm)]
        show mapGet (addEmpPoints (if dp = "" then m
          else mapSet m dp ((mapGet m dp).getD 0 + e.monthlyPoint.getD 0)) t) d = _
        rw [if_pos hdp]
        exact ih m v h
      · by_cases heq : dp = d
        · subst heq
          rw [sumPts_cons_hit e t dp he]
          show mapGet (addEmpPoints (if dp = "" then m
            else mapSet m dp ((mapGet m dp).getD 0 + e.monthlyPoint.getD 0)) t) dp = _
          rw [if_neg hdp, h, Option.getD_some,
            ih (mapSet m dp (v + e.monthlyPoint.getD 0)) (v + e.monthlyPoint.getD 0)
              (mapGet_mapSet_self m dp _),
            add_assoc]
        · rw [sumPts_cons_skip e t d
            (by rw [he]; intro hc; exact heq (Option.some.inj hc))]
          show mapGet (addEmpPoints (if dp = "" then m
            else mapSet m dp ((mapGet m dp).getD 0 + e.monthlyPoint.getD 0)) t) d = _
          rw [if_neg hdp]
          apply ih
          rw [mapGet_mapSet_ne m dp d _ heq]
          exact h

/-- C3 (amended): every known department's total in the points map equals
the sum of defaulted `monthlyPoint` over exactly the employees whose
`department` is string-equal to its name (starting from the initialized
0); however, an employee whose department is not in the supplied list adds
a fresh map entry, so the reported best department can be a name appearing
only on an employee record, as the concrete instance shows. -/
theorem deptPoints_known_dept_sum :
    (∀ (deps : List Department) (emps : List DeptEmp) (d : String),
        d ≠ "" → d ∈ deps.map Department.name →
        mapGet (deptPoints deps emps) d = some (sumPts emps d))
    ∧ calculateBestDepartment [⟨some "B", some 5⟩] [⟨"A"⟩] = ("B", 5)
    ∧ "B" ∉ ([⟨"A"⟩] : List Department).map Department.name := by
  refine ⟨?_, by decide, by decide⟩
  intro deps emps d hne hd
  have h0 : mapGet (initDeptPoints deps) d = some 0 := initDeptPoints_get deps d hd
  have h := addEmpPoints_get emps d hne (initDeptPoints deps) 0 h0
  rw [deptPoints, h]
  norm_num

theorem deptPoints_known_dept_sum_witness :
    mapGet
      (deptPoints [⟨"Engineering"⟩]
        [⟨some "Engineering", some 500⟩, ⟨some "Sales", some 100⟩])
      "Engineering" = some 500 := by
  rw [deptPoints_known_dept_sum.1 [⟨"Engineering"⟩]
    [⟨some "Engineering", some 500⟩, ⟨some "Sales", some 100⟩]
    "Engineering" (by decide) (by decide)]
  decide

/-- C3 (counterexample): with department list `["A"]` and a single
employee in department `"B"` worth 5 points, the reported best department
is `"B"` — a name that appears only on an employee record, neither a
supplied department nor the `"N/A"` sentinel. -/
theorem calculateBestDepartment_nonlisted_name :
    calculateBestDepartment [⟨some "B", some 5⟩] [⟨"A"⟩] = ("B", 5)
    ∧ "B" ∉ ([⟨"A"⟩] : List Department).map Department.name
    ∧ "B" ≠ "N/A" := by decide

lemma selectMax_cons (k : String) (w : Int) (t : PtsMap) (a : Int) (b : String) :
    selectMax ((k, w) :: t) (a, b)
      = selectMax t (if w > a then (w, k) else (a, b)) := rfl

lemma selectMax_stay (l : PtsMap) (v : Int) (b : String)
    (h : ∀ p ∈ l, p.2 ≤ v) : selectMax l (v, b) = (v, b) := by
  induction l generalizing b with
  | nil => rfl
  | cons p t ih =>
    obtain ⟨k, w⟩ := p
    have hp : w ≤ v := h (k, w) (by simp)
    rw [selectMax_cons, if_neg (by omega)]
    exact ih b (fun q hq => h q (List.mem_cons_of_mem _ hq))

lemma selectMax_eq (l : PtsMap) (d : String) (v : Int) :
    ∀ (a : Int) (b : String), (d, v) ∈ l →
      (∀ p ∈ l, p.2 ≤ v ∧ (p.2 = v → p.1 = d)) → a < v →
      selectMax l (a, b) = (v, d) := by
  induction l with
  | nil =>
    intro a b hmem
    simp at hmem
  | cons p t ih =>
    intro a b hmem hmax ha
    obtain ⟨k, w⟩ := p
    rw [selectMax_cons]
    by_cases hw : w = v
    · have hk : k = d := (hmax (k, w) (by simp)).2 hw
      rw [if_pos (by omega : w > a), hw, hk]
      exact selectMax_stay t v d
        (fun q hq => (hmax q (List.mem_cons_of_mem _ hq)).1)
    · have hwlt : w < v :=
        lt_of_le_of_ne ((hmax (k, w) (by simp)).1) hw
      have hmem' : (d, v) ∈ t := by
        rcases List.mem_cons.mp hmem with hh | hh
        · exact absurd (congrArg Prod.snd hh).symm hw
        · exact hh
      have hmax' : ∀ p ∈ t, p.2 ≤ v ∧ (p.2 = v → p.1 = d) :=
        fun q hq => hmax q (List.mem_cons_of_mem _ hq)
      by_cases hgt : w > a
      · rw [if_pos hgt]
        exact ih w k hmem' hmax' hwlt
      · rw [if_neg hgt]
        exact ih a b hmem' hmax' ha

lemma addEmpPoints_empty_key (emps : List DeptEmp) :
    ∀ m : PtsMap, (∀ x : Int, ("", x) ∈ m → x = 0) →
      ∀ x : Int, ("", x) ∈ addEmpPoints m emps → x = 0 := by
  induction emps with
  | nil =>
    intro m hm x hx
    exact hm x hx
  | cons e t ih =>
    intro m hm x hx
    rw [show addEmpPoints m (e :: t)
        = addEmpPoints
            (match e.department with
              | none => m
              | some dp =>
                if dp = "" then m
                else mapSet m dp ((mapGet m dp).getD 0 + e.monthlyPoint.getD 0)) t
      from rfl] at hx
    cases he : e.department with
    | none =>
      rw [he] at hx
      exact ih m hm x hx
    | some dp =>
      rw [he] at hx
      have hx' : ("", x) ∈ addEmpPoints
          (if dp = "" then m
            else mapSet m dp ((mapGet m dp).getD 0 + e.monthlyPoint.getD 0)) t := hx
      by_cases hdp : dp = ""
      · rw [if_pos hdp] at hx'
        exact ih m hm x hx'
      · rw [if_neg hdp] at hx'
        refine ih _ ?_ x hx'
        intro y hy
        rcases mem_mapSet _ _ _ _ hy with h' | h'
        · exact absurd (congrArg Prod.fst h') (by simpa using Ne.symm hdp)
        · exact hm y h'

lemma initDeptPoints_values (deps : List Department) :
    ∀ m : PtsMap, (∀ p ∈ m, p.2 = 0) →
      ∀ p ∈ deps.foldl (fun m d => mapSet m d.name 0) m, p.2 = 0 := by
  induction deps with
  | nil =>
    intro m hm p hp
    exact hm p hp
  | cons dp t ih =>
    intro m hm p hp
    simp only [List.foldl_cons] at hp
    refine ih _ ?_ p hp
    intro q hq
    rcases mem_mapSet _ _ _ _ hq with h' | h'
    · rw [h']
    · exact hm q h'

lemma deptPoints_empty_key (deps : List Department) (emps : List DeptEmp)
    (x : Int) (hx : ("", x) ∈ deptPoints deps emps) : x = 0 := by
  refine addEmpPoints_empty_key emps (initDeptPoints deps) ?_ x hx
  intro y hy
  exact initDeptPoints_values deps [] (by simp) ("", y) hy

lemma deptCounts_no_empty_key (emps : List DeptEmp) :
    ∀ m : PtsMap, (∀ p ∈ m, p.1 ≠ "") →
      ∀ p ∈ emps.foldl
        (fun m e =>
          match e.department with
          | none => m
          | some d =>
            if d = "" then m
            else mapSet m d ((mapGet m d).getD 0 + 1))
        m, p.1 ≠ "" := by
  induction emps with
  | nil =>
    intro m hm p hp
    exact hm p hp
  | cons e t ih =>
    intro m hm p hp
    simp only [List.foldl_cons] at hp
    refine ih _ ?_ p hp
    intro q hq
    cases he : e.department with
    | none =>
      rw [he] at hq
      exact hm q hq
    | some dp =>
      rw [he] at hq
      have hq' : q ∈ (if dp = "" then m
          else mapSet m dp ((mapGet m dp).getD 0 + 1)) := hq
      by_cases hdp : dp = ""
      · rw [if_pos hdp] at hq'
        exact hm q hq'
      · rw [if_neg hdp] at hq'
        rcases mem_mapSet _ _ _ _ hq' with h' | h'
        · rw [h']
          exact hdp
        · exact hm q h'

lemma deptCounts_key_ne_empty (emps : List DeptEmp) (p : String × Int)
    (hp : p ∈ deptCounts emps) : p.1 ≠ "" :=
  deptCounts_no_empty_key emps [] (by simp) p hp

/-- C4: with a non-empty employee list and a non-empty department list,
`calculateBestDepartment` reports the entry of the points map with the
strictly greatest (positive) total, together with that total; when every
entry's total is exactly 0 it instead reports the entry of the headcount
map with the strictly greatest count, with 0 points; and when either input
list is empty it returns the `("N/A", 0)` sentinel. -/
theorem calculateBestDepartment_selection :
    ∀ (emps : List DeptEmp) (deps : List Department),
      ((emps = [] ∨ deps = []) → calculateBestDepartment emps deps = ("N/A", 0))
      ∧ (∀ (d : String) (v : Int),
          emps ≠ [] → deps ≠ [] →
          (d, v) ∈ deptPoints deps emps → 0 < v →
          (∀ p ∈ deptPoints deps emps, p.2 ≤ v ∧ (p.2 = v → p.1 = d)) →
          calculateBestDepartment emps deps = (d, v))
      ∧ (∀ (d : String) (c : Int),
          emps ≠ [] → deps ≠ [] →
          (∀ p ∈ deptPoints deps emps, p.2 = 0) →
          (d, c) ∈ deptCounts emps → 0 < c →
          (∀ p ∈ deptCounts emps, p.2 ≤ c ∧ (p.2 = c → p.1 = d)) →
          calculateBestDepartment emps deps = (d, 0)) := by
  intro emps deps
  refine ⟨?_, ?_, ?_⟩
  · intro h
    rcases h with h | h <;> simp [calculateBestDepartment, h]
  · intro d v hemps hdeps hmem hv hmax
    have hlen : ¬ (emps.length = 0 ∨ deps.length = 0) := by
      simp [List.length_eq_zero, hemps, hdeps]
    have hsel : selectMax (deptPoints deps emps) (0, "") = (v, d) :=
      selectMax_eq (deptPoints deps emps) d v 0 "" hmem hmax hv
    have hdne : d ≠ "" := by
      intro hc
      subst hc
      exact absurd (deptPoints_empty_key deps emps v hmem) (by omega)
    have hvne : ¬ ((v, d).1 = 0 ∧ 0 < deps.length) :=
      fun hc => absurd hc.1 (by omega)
    simp only [calculateBestDepartment]
    rw [if_neg hlen, hsel, if_neg hvne,
      if_neg (show ¬ ((v, d).2 = "") from hdne)]
  · intro d c hemps hdeps hzero hmem hc hmax
    have hlen : ¬ (emps.length = 0 ∨ deps.length = 0) := by
      simp [List.length_eq_zero, hemps, hdeps]
    have hsel : selectMax (deptPoints deps emps) (0, "") = (0, "") :=
      selectMax_stay (deptPoints deps emps) 0 ""
        (fun p hp => le_of_eq (hzero p hp))
    have hselc : selectMax (deptCounts emps) (0, ((0 : Int), "").2) = (c, d) :=
      selectMax_eq (deptCounts emps) d c 0 "" hmem hmax hc
    have hdne : d ≠ "" := deptCounts_key_ne_empty emps (d, c) hmem
    have hcond : ((0 : Int), "").1 = 0 ∧ 0 < deps.length :=
      ⟨rfl, List.length_pos.mpr hdeps⟩
    simp only [calculateBestDepartment]
    rw [if_neg hlen, hsel, if_pos hcond, hselc,
      if_neg (show ¬ ((c, d).2 = "") from hdne)]

theorem calculateBestDepartment_selection_witness :
    calculateBestDepartment [] [] = ("N/A", 0)
    ∧ calculateBestDepartment
        [⟨some "Engineering", some 500⟩, ⟨some "Engineering", some 0⟩,
          ⟨some "Engineering", some 0⟩, ⟨some "Sales", some 100⟩]
        [⟨"Engineering"⟩, ⟨"Sales"⟩] = ("Engineering", 500)
    ∧ calculateBestDepartment
        [⟨some "A", some 0⟩, ⟨some "B", some 0⟩, ⟨some "B", none⟩]
        [⟨"A"⟩, ⟨"B"⟩] = ("B", 0) :=
  ⟨(calculateBestDepartment_selection [] []).1 (Or.inl rfl),
    (calculateBestDepartment_selection _ _).2.1 "Engineering" 500
      (by decide) (by decide) (by decide) (by decide) (by decide),
    (calculateBestDepartment_selection _ _).2.2 "B" 2
      (by decide) (by decide) (by decide) (by decide) (by decide) (by decide)⟩

/-- C7 (amended): `loadTaskStats` yields the fully zero-filled ten-key
stats object (all counts 0, `total` 0) exactly when the response is not ok
or carries no data object; an ok response's data object is returned
verbatim, with no per-key zero substitution, so a present `total` passes
through unchanged and a missing key stays missing. -/
theorem loadTaskStats_passthrough_policy :
    (∀ (ok : Bool) (data : Option RawTaskStats),
        ok = false ∨ data = none →
        loadTaskStatsResult ok data = zeroTaskStats)
    ∧ (∀ d : RawTaskStats, loadTaskStatsResult true (some d) = d) := by
  constructor
  · intro ok data h
    rcases h with h | h
    · subst h
      cases data <;> rfl
    · subst h
      cases ok <;> rfl
  · intro d
    rfl

theorem loadTaskStats_passthrough_policy_witness :
    loadTaskStatsResult false none = zeroTaskStats
    ∧ loadTaskStatsResult true
        (some ⟨some 7, none, none, none, none, none, none, none, none, none, none⟩)
      = ⟨some 7, none, none, none, none, none, none, none, none, none, none⟩ :=
  ⟨loadTaskStats_passthrough_policy.1 false none (Or.inl rfl),
    loadTaskStats_passthrough_policy.2
      ⟨some 7, none, none, none, none, none, none, none, none, none, none⟩⟩

/-- C7 (counterexample): an ok response whose data object is empty (every
key absent) is passed through verbatim, so the caller observes an absent
`total` and absent sub-counts instead of the claimed zeros. -/
theorem loadTaskStats_empty_object_not_normalized :
    (loadTaskStatsResult true
        (some ⟨none, none, none, none, none, none, none, none, none, none, none⟩)).total
      ≠ some 0
    ∧ (loadTaskStatsResult true
        (some ⟨none, none, none, none, none, none, none, none, none, none, none⟩)).inProgress
      ≠ some 0 := by decide

/-- C8 (counterexample): `getRankLabel` appends a bare `"th"` to every rank
above 3, so rank 21 is labelled `"21th"`, not the `"21st"` required by the
English ordinal suffix rules the claim states. -/
theorem getRankLabel_21_is_21th :
    getRankLabel 21 = "21th" ∧ getRankLabel 21 ≠ "21st" := by decide

lemma getDayRankSuffix_eq_english (n : Nat) (hn : n ≠ 0) :
    getDayRankSuffix n = englishOrdinalSuffix n := by
  unfold getDayRankSuffix englishOrdinalSuffix
  rw [if_neg hn]
  by_cases h13 : 11 ≤ n % 100 ∧ n % 100 ≤ 13
  · simp [h13]
  · simp only [if_neg h13]
    have h10 : n % 10 < 10 := Nat.mod_lt _ (by norm_num)
    rcases (show n % 10 = 0 ∨ n % 10 = 1 ∨ n % 10 = 2 ∨ n % 10 = 3 ∨ n % 10 = 4
        ∨ n % 10 = 5 ∨ n % 10 = 6 ∨ n % 10 = 7 ∨ n % 10 = 8 ∨ n % 10 = 9 by omega)
      with h | h | h | h | h | h | h | h | h | h <;> simp [h]

/-- C8 (amended): `getDayRankSuffix` follows the full English ordinal
suffix rules for every positive rank (11–13 give "th", else last digit
1/2/3 give "st"/"nd"/"rd", else "th"), while `getRankLabel` special-cases
only ranks 1, 2 and 3 and labels every other rank with a bare `"th"`
suffix (so rank 21 yields `"21th"`). -/
theorem rank_ordinal_labels :
    (∀ n : Nat, 0 < n → getDayRankSuffix n = englishOrdinalSuffix n)
    ∧ (getRankLabel 1 = "1st" ∧ getRankLabel 2 = "2nd" ∧ getRankLabel 3 = "3rd")
    ∧ (∀ n : Nat, 3 < n → getRankLabel n = toString n ++ "th") := by
  refine ⟨?_, ⟨rfl, rfl, rfl⟩, ?_⟩
  · intro n hn
    exact getDayRankSuffix_eq_english n (by omega)
  · intro n hn
    obtain ⟨m, rfl⟩ : ∃ m, n = m + 4 := ⟨n - 4, by omega⟩
    rfl

theorem rank_ordinal_labels_witness :
    getDayRankSuffix 21 = englishOrdinalSuffix 21
    ∧ getRankLabel 21 = toString 21 ++ "th" :=
  ⟨rank_ordinal_labels.1 21 (by decide), rank_ordinal_labels.2.2 21 (by decide)⟩

lemma sortByRank_sorted (l : List RankEmp) :
    List.Pairwise rankOrder (sortByRank l) :=
  @List.sorted_insertionSort RankEmp rankOrder _
    ⟨fun a b => Int.le_total a.monthlyRank b.monthlyRank⟩
    ⟨fun _ _ _ hab hbc => le_trans hab hbc⟩ l

lemma sortByRank_perm (l : List RankEmp) : (sortByRank l).Perm l :=
  List.perm_insertionSort rankOrder l

/-- C9: the `topN` selection is the `n`-element prefix of the ascending
`monthlyRank` reordering: its output is sorted ascending by `monthlyRank`,
the output together with the dropped suffix is a permutation of the input,
every selected employee ranks no worse than every dropped one, and on the
ranks-`[2, 1, 3]` input with `n = 2` it returns the rank-1 employee
followed by the rank-2 employee. -/
theorem topN_spec :
    (∀ (l : List RankEmp) (n : Nat), List.Pairwise rankOrder (topN l n))
    ∧ (∀ (l : List RankEmp) (n : Nat),
        (topN l n ++ (sortByRank l).drop n).Perm l)
    ∧ (∀ (l : List RankEmp) (n : Nat), ∀ a ∈ topN l n,
        ∀ b ∈ (sortByRank l).drop n, a.monthlyRank ≤ b.monthlyRank)
    ∧ topN [⟨"x", 2⟩, ⟨"y", 1⟩, ⟨"z", 3⟩] 2 = [⟨"y", 1⟩, ⟨"x", 2⟩] := by
  refine ⟨?_, ?_, ?_, by decide⟩
  · intro l n
    exact List.Pairwise.sublist (List.take_sublist n _) (sortByRank_sorted l)
  · intro l n
    show (List.take n (sortByRank l) ++ List.drop n (sortByRank l)).Perm l
    rw [List.take_append_drop]
    exact sortByRank_perm l
  · intro l n a ha b hb
    have hs := sortByRank_sorted l
    rw [← List.take_append_drop n (sortByRank l)] at hs
    exact (List.pairwise_append.mp hs).2.2 a ha b hb

theorem topN_spec_witness :
    List.Pairwise rankOrder (topN [⟨"x", 2⟩, ⟨"y", 1⟩, ⟨"z", 3⟩] 2)
    ∧ (⟨"y", 1⟩ : RankEmp).monthlyRank ≤ (⟨"z", 3⟩ : RankEmp).monthlyRank :=
  ⟨topN_spec.1 [⟨"x", 2⟩, ⟨"y", 1⟩, ⟨"z", 3⟩] 2,
    topN_spec.2.2.1 [⟨"x", 2⟩, ⟨"y", 1⟩, ⟨"z", 3⟩] 2 ⟨"y", 1⟩ (by decide)
      ⟨"z", 3⟩ (by decide)⟩

/-- C10: the `next` handler of `loadEmployeeRanking` leaves the component's
full `employees` array sorted ascending by `monthlyRank` (a permutation of
the received `pageData`, with `topThreeEmployees` its 3-element prefix),
and on a concrete out-of-order input the stored list differs from the
order received — the in-place sort does not leave its input unchanged. -/
theorem loadEmployeeRanking_sorts_in_place :
    (∀ (st : RankingState) (pd : List RankEmp),
        List.Pairwise rankOrder ((rankingOnNext st true (some pd)).employees)
        ∧ ((rankingOnNext st true (some pd)).employees).Perm pd
        ∧ (rankingOnNext st true (some pd)).topThreeEmployees
            = ((rankingOnNext st true (some pd)).employees).take 3)
    ∧ (rankingOnNext ⟨[], []⟩ true (some [⟨"x", 2⟩, ⟨"y", 1⟩])).employees
        ≠ [⟨"x", 2⟩, ⟨"y", 1⟩] := by
  refine ⟨?_, by decide⟩
  intro st pd
  exact ⟨sortByRank_sorted pd, sortByRank_perm pd, rfl⟩

end SwiftDashboard
